import Mathlib

/-!
Verification development for the `create-env-vars.py` utility of the
simple-identity-server repository.

The script holds a literal dictionary `env_vars` of environment-variable
names and values, sets each pair in the current process environment,
and then persists them according to the host platform: on `win32` it
spawns `setx NAME "VALUE" /M` once per entry, on a platform whose name
starts with `linux` it appends one `NAME="VALUE"` line per entry to
`/etc/environment`, and on any other platform it does nothing further.

We embed the script as a pure state-transition function.  The ambient
process environment is a partial map `String → Option String`, the
system environment file is its textual content, and every externally
visible action (environment mutation, subprocess spawn, file open,
file write, printed progress line) is recorded in an event trace.
-/

namespace CreateEnvVars

/-- The literal dictionary `env_vars` of create-env-vars.py, in its
insertion order.  (Python preserves dict insertion order; the backslash
sequences `\d`, `\s`, `\i` in the source are not escape sequences in
Python, so the values keep their backslashes literally.) -/
def env_vars : List (String × String) := [
  ("SIMPLE_IDENTITY_SERVER_DB_PASSWORD", "sample@Strong23Password"),
  ("SIMPLE_IDENTITY_SERVER_CERT_PASSWORD", "SharedCertPassword123!"),
  ("ASPNETCORE_ENVIRONMENT", "Production"),
  ("ASPNETCORE_URLS", "https://+:443"),
  ("Kestrel__Certificates__Default__Path", "c:\\dev\\ssl\\identity-dev-test.crt"),
  ("Kestrel__Certificates__Default__KeyPath", "c:\\dev\\ssl\\identity-dev-test.key"),
  ("SIMPLE_IDENTITY_SERVER_DEFAULT_CONNECTION_STRING",
   "Server=.,14333;Database=SimpleIdentityServer;MultipleActiveResultSets=true;uid=sa;pwd=sample@Strong23Password;TrustServerCertificate=true;Encrypt=true"),
  ("SIMPLE_IDENTITY_SERVER_SECURITY_LOGS_CONNECTION_STRING",
   "Server=.,14333;Database=SimpleIdentityServerSecurityLogs;MultipleActiveResultSets=true;uid=sa;pwd=sample@Strong23Password;TrustServerCertificate=true;Encrypt=true")]

/-- Python's `s.startswith(pre)`: `pre` is a prefix of `s`
(character-wise). -/
def strStartsWith (s pre : String) : Bool := pre.data.isPrefixOf s.data

/-- The process environment table: a partial map from names to values. -/
def Env : Type := String → Option String

/-- `os.environ[key] = value`: overwrite the binding for `key`. -/
def setEnvVar (e : Env) (k v : String) : Env :=
  fun k' => if k' = k then some v else e k'

/-- Apply `os.environ[key] = value` for every pair of `l`, left to right. -/
def setAll (l : List (String × String)) (e : Env) : Env :=
  l.foldl (fun e kv => setEnvVar e kv.1 kv.2) e

/-- The command string `setx {key} "{value}" /M` passed to
`subprocess.run` on Windows. -/
def mkSetxCmd (k v : String) : String :=
  "setx " ++ k ++ " \"" ++ v ++ "\" /M"

/-- The line `{key}="{value}"\n` written to /etc/environment on Linux.
The value is interpolated verbatim, with no escaping. -/
def mkLine (k v : String) : String :=
  k ++ "=\"" ++ v ++ "\"\n"

/-- Progress line printed in the process-scope loop. -/
def procMsg (k : String) : String := "Set " ++ k ++ " for current process."

/-- Progress line printed in the Windows persistence loop. -/
def winMsg (k : String) : String := "Set " ++ k ++ " system-wide (Windows)."

/-- Progress line printed in the Linux persistence loop. -/
def linMsg (k : String) : String := "Appended " ++ k ++ " to /etc/environment (Linux)."

/-- An externally visible action of the script. -/
inductive Event where
  /-- `os.environ[k] = v` -/
  | setProc : String → String → Event
  /-- `subprocess.run cmd` -/
  | runSetx : String → Event
  /-- `open path mode` succeeded -/
  | openFile : String → String → Event
  /-- `env_file.write l` -/
  | writeLine : String → Event
  /-- a `print` call with the given text -/
  | printed : String → Event
  deriving DecidableEq, Repr

/-- The observable world the script acts on: the process environment, the
content of /etc/environment, and the trace of actions performed so far. -/
structure State where
  env : Env
  file : String
  events : List Event

/-- One iteration of the process-scope loop
(`os.environ[key] = value` followed by the print). -/
def procStep (s : State) (kv : String × String) : State :=
  { s with env := setEnvVar s.env kv.1 kv.2,
           events := s.events ++ [Event.setProc kv.1 kv.2, Event.printed (procMsg kv.1)] }

/-- One iteration of the Windows persistence loop
(`subprocess.run(f'setx {key} "{value}" /M', shell=True)` followed by the print). -/
def winStep (s : State) (kv : String × String) : State :=
  { s with events := s.events ++ [Event.runSetx (mkSetxCmd kv.1 kv.2), Event.printed (winMsg kv.1)] }

/-- One iteration of the Linux persistence loop
(`env_file.write(f'{key}="{value}"\n')` followed by the print). -/
def linStep (s : State) (kv : String × String) : State :=
  { s with file := s.file ++ mkLine kv.1 kv.2,
           events := s.events ++ [Event.writeLine (mkLine kv.1 kv.2), Event.printed (linMsg kv.1)] }

/-- The whole `set_env_vars()` procedure.  `platform` is the value of
`sys.platform`; `openOk` is whether `open("/etc/environment", "a")`
succeeds when it is attempted.  Returns the final state together with
`true` when the run completes normally and `false` when it is aborted by
the unhandled exception from a failed file open (the Python script
catches nothing, so the exception terminates the run right there). -/
def set_env_vars (platform : String) (openOk : Bool) (s : State) : State × Bool :=
  let s1 := env_vars.foldl procStep s
  if platform = "win32" then
    (env_vars.foldl winStep s1, true)
  else if strStartsWith platform "linux" then
    if openOk then
      let s2 := { s1 with events := s1.events ++ [Event.openFile "/etc/environment" "a"] }
      (env_vars.foldl linStep s2, true)
    else
      (s1, false)
  else
    (s1, true)

/-- A convenient concrete initial state: empty environment, empty file,
no events yet. -/
def initState : State := { env := fun _ => none, file := "", events := [] }

/-- The events emitted by the process-scope loop over `l`. -/
def procTraceOf (l : List (String × String)) : List Event :=
  l.flatMap (fun kv => [Event.setProc kv.1 kv.2, Event.printed (procMsg kv.1)])

/-- The events emitted by the Windows persistence loop over `l`. -/
def winTraceOf (l : List (String × String)) : List Event :=
  l.flatMap (fun kv => [Event.runSetx (mkSetxCmd kv.1 kv.2), Event.printed (winMsg kv.1)])

/-- The events emitted by the Linux persistence loop over `l`. -/
def linTraceOf (l : List (String × String)) : List Event :=
  l.flatMap (fun kv => [Event.writeLine (mkLine kv.1 kv.2), Event.printed (linMsg kv.1)])

/-- The text appended to /etc/environment by the Linux loop over `l`:
the concatenation of one `mkLine` per entry, in order. -/
def linesStr : List (String × String) → String
  | [] => ""
  | kv :: t => mkLine kv.1 kv.2 ++ linesStr t

/-- The events of the persistence phase, as a function of the platform
string and of whether the file open succeeds. -/
def persistTraceOf (platform : String) (openOk : Bool) : List Event :=
  if platform = "win32" then winTraceOf env_vars
  else if strStartsWith platform "linux" then
    if openOk then Event.openFile "/etc/environment" "a" :: linTraceOf env_vars
    else []
  else []

/-- Is an event a process-scope environment mutation? -/
def isSetProcEv : Event → Bool
  | Event.setProc _ _ => true
  | _ => false

/-- Is an event a `subprocess.run` spawn? -/
def isSetxEv : Event → Bool
  | Event.runSetx _ => true
  | _ => false

/-- Is an event a persistence-phase side effect (file open, file write,
or subprocess spawn)?  Printed progress lines do not count. -/
def isPersistEffect : Event → Bool
  | Event.runSetx _ => true
  | Event.openFile _ _ => true
  | Event.writeLine _ => true
  | _ => false

section FoldLemmas

lemma foldl_procStep_env (l : List (String × String)) (s : State) :
    (l.foldl procStep s).env = setAll l s.env := by
  induction l generalizing s with
  | nil => rfl
  | cons kv t ih => simp [List.foldl_cons, setAll, procStep, ih]

lemma foldl_procStep_file (l : List (String × String)) (s : State) :
    (l.foldl procStep s).file = s.file := by
  induction l generalizing s with
  | nil => rfl
  | cons kv t ih => simp [List.foldl_cons, procStep, ih]

lemma foldl_procStep_events (l : List (String × String)) (s : State) :
    (l.foldl procStep s).events = s.events ++ procTraceOf l := by
  induction l generalizing s with
  | nil => simp [procTraceOf]
  | cons kv t ih => simp [List.foldl_cons, procTraceOf, procStep, ih]

lemma foldl_winStep_env (l : List (String × String)) (s : State) :
    (l.foldl winStep s).env = s.env := by
  induction l generalizing s with
  | nil => rfl
  | cons kv t ih => simp [List.foldl_cons, winStep, ih]

lemma foldl_winStep_file (l : List (String × String)) (s : State) :
    (l.foldl winStep s).file = s.file := by
  induction l generalizing s with
  | nil => rfl
  | cons kv t ih => simp [List.foldl_cons, winStep, ih]

lemma foldl_winStep_events (l : List (String × String)) (s : State) :
    (l.foldl winStep s).events = s.events ++ winTraceOf l := by
  induction l generalizing s with
  | nil => simp [winTraceOf]
  | cons kv t ih => simp [List.foldl_cons, winTraceOf, winStep, ih]

lemma foldl_linStep_env (l : List (String × String)) (s : State) :
    (l.foldl linStep s).env = s.env := by
  induction l generalizing s with
  | nil => rfl
  | cons kv t ih => simp [List.foldl_cons, linStep, ih]

lemma foldl_linStep_file (l : List (String × String)) (s : State) :
    (l.foldl linStep s).file = s.file ++ linesStr l := by
  induction l generalizing s with
  | nil => simp [linesStr, String.append_empty]
  | cons kv t ih =>
      simp [List.foldl_cons, linStep, ih, linesStr, String.append_assoc]

lemma foldl_linStep_events (l : List (String × String)) (s : State) :
    (l.foldl linStep s).events = s.events ++ linTraceOf l := by
  induction l generalizing s with
  | nil => simp [linTraceOf]
  | cons kv t ih => simp [List.foldl_cons, linTraceOf, linStep, ih]

end FoldLemmas

section SetAllLemmas

lemma setAll_apply_of_not_mem (l : List (String × String)) (e : Env) (k : String)
    (h : k ∉ l.map Prod.fst) : setAll l e k = e k := by
  induction l generalizing e with
  | nil => rfl
  | cons kv t ih =>
      simp only [List.map_cons, List.mem_cons] at h
      push_neg at h
      simp only [setAll, List.foldl_cons]
      rw [show (t.foldl (fun e kv => setEnvVar e kv.1 kv.2) (setEnvVar e kv.1 kv.2)) =
        setAll t (setEnvVar e kv.1 kv.2) from rfl, ih _ h.2, setEnvVar, if_neg h.1]

lemma setAll_apply_indep_of_mem (l : List (String × String)) (e e' : Env) (k : String)
    (h : k ∈ l.map Prod.fst) : setAll l e k = setAll l e' k := by
  induction l generalizing e e' with
  | nil => simp at h
  | cons kv t ih =>
      simp only [List.map_cons, List.mem_cons] at h
      by_cases ht : k ∈ t.map Prod.fst
      · simpa [setAll, List.foldl_cons] using ih (setEnvVar e kv.1 kv.2) (setEnvVar e' kv.1 kv.2) ht
      · have hk : k = kv.1 := h.resolve_right ht
        simp only [setAll, List.foldl_cons]
        rw [show (t.foldl (fun e kv => setEnvVar e kv.1 kv.2) (setEnvVar e kv.1 kv.2)) =
          setAll t (setEnvVar e kv.1 kv.2) from rfl,
          setAll_apply_of_not_mem t _ k ht,
          show (t.foldl (fun e kv => setEnvVar e kv.1 kv.2) (setEnvVar e' kv.1 kv.2)) =
          setAll t (setEnvVar e' kv.1 kv.2) from rfl,
          setAll_apply_of_not_mem t _ k ht]
        simp [setEnvVar, hk]

lemma setAll_idem_apply (l : List (String × String)) (e : Env) (k : String) :
    setAll l (setAll l e) k = setAll l e k := by
  by_cases h : k ∈ l.map Prod.fst
  · exact setAll_apply_indep_of_mem l (setAll l e) e k h
  · rw [setAll_apply_of_not_mem l _ k h]

lemma setAll_apply_of_mem_nodup (l : List (String × String)) (e : Env)
    (kv : String × String) (hmem : kv ∈ l) (hnd : (l.map Prod.fst).Nodup) :
    setAll l e kv.1 = some kv.2 := by
  induction l generalizing e with
  | nil => simp at hmem
  | cons a t ih =>
      simp only [List.map_cons, List.nodup_cons] at hnd
      rcases List.mem_cons.mp hmem with h | h
      · subst h
        simp only [setAll, List.foldl_cons]
        rw [show (t.foldl (fun e kv => setEnvVar e kv.1 kv.2) (setEnvVar e kv.1 kv.2)) =
          setAll t (setEnvVar e kv.1 kv.2) from rfl,
          setAll_apply_of_not_mem t _ kv.1 hnd.1]
        simp [setEnvVar]
      · simpa [setAll, List.foldl_cons] using ih (setEnvVar e a.1 a.2) h hnd.2

end SetAllLemmas

section RunLemmas

/-- On every platform the final process environment of a run is the
process-scope phase's update of the initial one: the persistence phase
never touches the process environment. -/
lemma run_env (p : String) (ok : Bool) (s : State) :
    ((set_env_vars p ok s).1).env = setAll env_vars s.env := by
  unfold set_env_vars
  split_ifs <;>
    simp [foldl_winStep_env, foldl_linStep_env, foldl_procStep_env]

/-- The trace of a run: the initial events, then the process-scope
phase's events, then the persistence phase's events. -/
lemma run_events (p : String) (ok : Bool) (s : State) :
    ((set_env_vars p ok s).1).events =
      s.events ++ (procTraceOf env_vars ++ persistTraceOf p ok) := by
  unfold set_env_vars persistTraceOf
  split_ifs <;>
    simp [foldl_winStep_events, foldl_linStep_events, foldl_procStep_events,
      List.append_assoc]

lemma run_file_win (ok : Bool) (s : State) :
    ((set_env_vars "win32" ok s).1).file = s.file := by
  unfold set_env_vars
  simp [foldl_winStep_file, foldl_procStep_file]

lemma run_file_linux_ok (p : String) (s : State)
    (h1 : p ≠ "win32") (h2 : strStartsWith p "linux" = true) :
    ((set_env_vars p true s).1).file = s.file ++ linesStr env_vars := by
  unfold set_env_vars
  rw [if_neg h1, if_pos h2, if_pos rfl]
  simp [foldl_linStep_file, foldl_procStep_file]

lemma run_file_linux_fail (p : String) (s : State)
    (h1 : p ≠ "win32") (h2 : strStartsWith p "linux" = true) :
    ((set_env_vars p false s).1).file = s.file := by
  unfold set_env_vars
  rw [if_neg h1, if_pos h2]
  simp [foldl_procStep_file]

lemma run_file_other (p : String) (ok : Bool) (s : State)
    (h1 : p ≠ "win32") (h2 : strStartsWith p "linux" = false) :
    ((set_env_vars p ok s).1).file = s.file := by
  unfold set_env_vars
  rw [if_neg h1, if_neg (by simp [h2])]
  simp [foldl_procStep_file]

lemma run_success_linux_fail (p : String) (s : State)
    (h1 : p ≠ "win32") (h2 : strStartsWith p "linux" = true) :
    (set_env_vars p false s).2 = false := by
  unfold set_env_vars
  rw [if_neg h1, if_pos h2]
  simp

/-- Keys of the configuration are pairwise distinct. -/
lemma env_vars_keys_nodup : (env_vars.map Prod.fst).Nodup := by decide

end RunLemmas

/-- A line of /etc/environment is well formed when it is
`NAME="VALUE"` followed by a newline, where the name contains neither
`=` nor a double quote and the value contains no double quote. -/
def wellFormedLine (l : String) : Prop :=
  ∃ n v : String, n.data.contains '=' = false ∧ n.data.contains '"' = false ∧
    v.data.contains '"' = false ∧ l = n ++ "=\"" ++ v ++ "\"\n"

lemma count_quote_of_wellFormedLine {l : String} (h : wellFormedLine l) :
    l.data.count '"' = 2 := by
  obtain ⟨n, v, -, hnq, hvq, rfl⟩ := h
  have hn' : '"' ∉ n.data := by simpa using hnq
  have hv' : '"' ∉ v.data := by simpa using hvq
  simp [String.data_append, List.count_append,
    List.count_eq_zero.mpr hn', List.count_eq_zero.mpr hv']

lemma count_quote_mkLine (k v : String) :
    (mkLine k v).data.count '"' = k.data.count '"' + v.data.count '"' + 2 := by
  simp [mkLine, String.data_append, List.count_append]
  omega

/-- C1: after a run on any platform and from any prior state, every
entry `(name, value)` of the embedded ConfigSet is mapped by the final
process environment to exactly its configured value; whatever the prior
binding for that name was, it has been overwritten. -/
theorem claim_C1_process_env_maps_each_entry
    (p : String) (ok : Bool) (s : State) (kv : String × String)
    (h : kv ∈ env_vars) :
    ((set_env_vars p ok s).1).env kv.1 = some kv.2 := by
  rw [run_env]
  exact setAll_apply_of_mem_nodup env_vars s.env kv h env_vars_keys_nodup

/-- Witness for C1 at a concrete entry, platform and initial state. -/
theorem claim_C1_witness :
    ("ASPNETCORE_ENVIRONMENT", "Production") ∈ env_vars ∧
    ((set_env_vars "win32" true initState).1).env "ASPNETCORE_ENVIRONMENT" =
      some "Production" :=
  ⟨by decide,
   claim_C1_process_env_maps_each_entry "win32" true initState
     ("ASPNETCORE_ENVIRONMENT", "Production") (by decide)⟩

/-- C2 counterexample: the embedded ConfigSet does not have seven
distinct names — it has eight. -/
theorem claim_C2_counterexample :
    ¬ (env_vars.map Prod.fst).dedup.length = 7 := by decide

/-- C2 (amended): a run sets exactly eight named variables in the
current process environment table — the embedded ConfigSet contains
exactly eight distinct names, and a run changes the binding of no other
name. -/
theorem claim_C2_eight_distinct_names :
    (env_vars.map Prod.fst).Nodup ∧ env_vars.length = 8 ∧
    ∀ p ok s k, k ∉ env_vars.map Prod.fst →
      ((set_env_vars p ok s).1).env k = s.env k := by
  refine ⟨env_vars_keys_nodup, by decide, ?_⟩
  intro p ok s k hk
  rw [run_env]
  exact setAll_apply_of_not_mem env_vars s.env k hk

/-- Witness for C2 (amended) at a concrete non-ConfigSet name. -/
theorem claim_C2_witness :
    "PATH" ∉ env_vars.map Prod.fst ∧
    ((set_env_vars "darwin" true initState).1).env "PATH" =
      initState.env "PATH" :=
  ⟨by decide,
   claim_C2_eight_distinct_names.2.2 "darwin" true initState "PATH" (by decide)⟩

/-- C3: on a Linux-classified run the system environment file is opened
in append mode, its content grows by exactly the concatenation of one
line per ConfigSet entry — each line being exactly `NAME="VALUE"` plus a
newline, with exactly one newline, at the end — and the pre-existing
content is preserved unchanged as a prefix. -/
theorem claim_C3_linux_appends_one_line_per_entry
    (p : String) (s : State)
    (h1 : p ≠ "win32") (h2 : strStartsWith p "linux" = true) :
    ((set_env_vars p true s).1).file = s.file ++ linesStr env_vars ∧
    Event.openFile "/etc/environment" "a" ∈ ((set_env_vars p true s).1).events ∧
    (∀ k v, mkLine k v = k ++ "=\"" ++ v ++ "\"\n") ∧
    (∀ kv ∈ env_vars, (mkLine kv.1 kv.2).data.count '\n' = 1 ∧
      (mkLine kv.1 kv.2).data.getLast? = some '\n') := by
  refine ⟨run_file_linux_ok p s h1 h2, ?_, fun _ _ => rfl, by decide⟩
  rw [run_events]
  have hmem : Event.openFile "/etc/environment" "a" ∈ persistTraceOf p true := by
    unfold persistTraceOf
    rw [if_neg h1, if_pos h2, if_pos rfl]
    exact List.mem_cons_self _ _
  exact List.mem_append.mpr (Or.inr (List.mem_append.mpr (Or.inr hmem)))

/-- Witness for C3 at platform string "linux" and the empty state. -/
theorem claim_C3_witness :
    ((set_env_vars "linux" true initState).1).file =
      initState.file ++ linesStr env_vars :=
  (claim_C3_linux_appends_one_line_per_entry "linux" initState
    (by decide) (by decide)).1

/-- C4: on a Windows-classified run, exactly one `setx` subprocess is
spawned per ConfigSet entry, in order, and every spawned command string
requests machine scope: it ends with the ` /M` flag. -/
theorem claim_C4_windows_setx_once_per_entry_machine_scope
    (p : String) (ok : Bool) (s : State) (h : p = "win32") :
    (((set_env_vars p ok s).1).events).filter isSetxEv =
      s.events.filter isSetxEv ++
        env_vars.map (fun kv => Event.runSetx (mkSetxCmd kv.1 kv.2)) ∧
    (∀ k v, ∃ pre, mkSetxCmd k v = pre ++ " /M") := by
  subst h
  constructor
  · rw [run_events, List.filter_append]
    congr 1
  · intro k v
    refine ⟨"setx " ++ k ++ " \"" ++ v ++ "\"", ?_⟩
    rw [mkSetxCmd, show ("\" /M" : String) = "\"" ++ " /M" from rfl]
    simp [String.append_assoc]

/-- Witness for C4 at the concrete platform string "win32". -/
theorem claim_C4_witness :
    (((set_env_vars "win32" true initState).1).events).filter isSetxEv =
      initState.events.filter isSetxEv ++
        env_vars.map (fun kv => Event.runSetx (mkSetxCmd kv.1 kv.2)) :=
  (claim_C4_windows_setx_once_per_entry_machine_scope "win32" true initState
    rfl).1

set_option maxRecDepth 8192 in
/-- C5: running the procedure twice in succession leaves the process
environment in the same final state as one run (process-scope
provisioning is idempotent), while on a Linux-classified platform the
file receives the block of per-entry lines twice — each entry's line,
which occurs once per run, is duplicated. -/
theorem claim_C5_idempotent_env_duplicated_file
    (p : String) (s : State)
    (h1 : p ≠ "win32") (h2 : strStartsWith p "linux" = true) :
    (∀ q ok t k,
      ((set_env_vars q ok (set_env_vars q ok t).1).1).env k =
        ((set_env_vars q ok t).1).env k) ∧
    ((set_env_vars p true (set_env_vars p true s).1).1).file =
      s.file ++ (linesStr env_vars ++ linesStr env_vars) ∧
    (∀ kv ∈ env_vars,
      (linTraceOf env_vars).count (Event.writeLine (mkLine kv.1 kv.2)) = 1) := by
  refine ⟨?_, ?_, by decide⟩
  · intro q ok t k
    rw [run_env, run_env]
    exact setAll_idem_apply env_vars t.env k
  · rw [run_file_linux_ok p _ h1 h2, run_file_linux_ok p s h1 h2,
      String.append_assoc]

/-- Witness for C5 at platform string "linux" and the empty state. -/
theorem claim_C5_witness :
    ((set_env_vars "linux" true (set_env_vars "linux" true initState).1).1).file =
      initState.file ++ (linesStr env_vars ++ linesStr env_vars) :=
  (claim_C5_idempotent_env_duplicated_file "linux" initState
    (by decide) (by decide)).2.1

/-- C6: if on a Linux-classified run the open of /etc/environment
fails, the run aborts with the file content unchanged (no line was
written — indeed no persistence event at all was emitted), while every
process-scope mutation of phase 1 remains applied. -/
theorem claim_C6_linux_open_failure
    (p : String) (s : State)
    (h1 : p ≠ "win32") (h2 : strStartsWith p "linux" = true) :
    ((set_env_vars p false s).1).file = s.file ∧
    (set_env_vars p false s).2 = false ∧
    ((set_env_vars p false s).1).events = s.events ++ procTraceOf env_vars ∧
    ∀ kv ∈ env_vars, ((set_env_vars p false s).1).env kv.1 = some kv.2 := by
  refine ⟨run_file_linux_fail p s h1 h2, run_success_linux_fail p s h1 h2,
    ?_, ?_⟩
  · rw [run_events]
    have hp : persistTraceOf p false = [] := by
      unfold persistTraceOf
      rw [if_neg h1, if_pos h2]
      simp
    rw [hp, List.append_nil]
  · intro kv hkv
    rw [run_env]
    exact setAll_apply_of_mem_nodup env_vars s.env kv hkv env_vars_keys_nodup

/-- Witness for C6 at platform string "linux" and the empty state. -/
theorem claim_C6_witness :
    ((set_env_vars "linux" false initState).1).file = initState.file ∧
    (set_env_vars "linux" false initState).2 = false :=
  ⟨(claim_C6_linux_open_failure "linux" initState (by decide) (by decide)).1,
   (claim_C6_linux_open_failure "linux" initState (by decide) (by decide)).2.1⟩

/-- C7: on a platform classified as Other, a run performs no
persistence-phase side effect — the file is unchanged and the emitted
events are exactly those of the process-scope phase, which contain no
file open, no file write and no subprocess spawn — while the
process-scope phase still sets every ConfigSet entry. -/
theorem claim_C7_other_platform_no_persistence
    (p : String) (ok : Bool) (s : State)
    (h1 : p ≠ "win32") (h2 : strStartsWith p "linux" = false) :
    ((set_env_vars p ok s).1).file = s.file ∧
    ((set_env_vars p ok s).1).events = s.events ++ procTraceOf env_vars ∧
    (procTraceOf env_vars).filter isPersistEffect = [] ∧
    ∀ kv ∈ env_vars, ((set_env_vars p ok s).1).env kv.1 = some kv.2 := by
  refine ⟨run_file_other p ok s h1 h2, ?_, by decide, ?_⟩
  · rw [run_events]
    have hp : persistTraceOf p ok = [] := by
      unfold persistTraceOf
      rw [if_neg h1, if_neg (by simp [h2])]
    rw [hp, List.append_nil]
  · intro kv hkv
    rw [run_env]
    exact setAll_apply_of_mem_nodup env_vars s.env kv hkv env_vars_keys_nodup

/-- Witness for C7 at the concrete platform string "darwin". -/
theorem claim_C7_witness :
    ((set_env_vars "darwin" true initState).1).file = initState.file ∧
    ((set_env_vars "darwin" true initState).1).events =
      initState.events ++ procTraceOf env_vars :=
  ⟨(claim_C7_other_platform_no_persistence "darwin" true initState
      (by decide) (by decide)).1,
   (claim_C7_other_platform_no_persistence "darwin" true initState
      (by decide) (by decide)).2.1⟩

/-- C8: the line appended for an entry is the raw interpolation
`NAME="VALUE"` plus newline with no escaping of the value, and for any
value containing a double quote the resulting line is not a well-formed
`NAME="VALUE"` line. -/
theorem claim_C8_no_escaping_breaks_wellformedness
    (k v : String) (hv : v.data.contains '"' = true) :
    (∀ s0 kv, (linStep s0 kv).file =
      s0.file ++ (kv.1 ++ "=\"" ++ kv.2 ++ "\"\n")) ∧
    ¬ wellFormedLine (mkLine k v) := by
  refine ⟨fun _ _ => rfl, fun hwf => ?_⟩
  have h2 := count_quote_of_wellFormedLine hwf
  have hml := count_quote_mkLine k v
  have hvpos : 0 < v.data.count '"' :=
    List.count_pos_iff.mpr (by simpa using hv)
  omega

/-- Witness for C8 at a concrete value containing a double quote. -/
theorem claim_C8_witness :
    ("pass\"word").data.contains '"' = true ∧
    ¬ wellFormedLine (mkLine "SOME_NAME" "pass\"word") :=
  ⟨by decide,
   (claim_C8_no_escaping_breaks_wellformedness "SOME_NAME" "pass\"word"
     (by decide)).2⟩

/-- C9: every run's event trace is the prior events, then the
process-scope phase's events (one mutation plus one progress line per
entry, containing no persistence effect), then the persistence phase's
events (containing no process-scope mutation); the persistence events
are those of exactly one platform branch, selected by the platform
classification. -/
theorem claim_C9_phases_strictly_sequential
    (p : String) (ok : Bool) (s : State) :
    ((set_env_vars p ok s).1).events =
      s.events ++ (procTraceOf env_vars ++ persistTraceOf p ok) ∧
    (persistTraceOf p ok).filter isSetProcEv = [] ∧
    (procTraceOf env_vars).filter isPersistEffect = [] ∧
    ((p = "win32" ∧ persistTraceOf p ok = winTraceOf env_vars) ∨
     (p ≠ "win32" ∧ strStartsWith p "linux" = true ∧
       persistTraceOf p ok =
         (if ok then Event.openFile "/etc/environment" "a" :: linTraceOf env_vars
          else [])) ∨
     (p ≠ "win32" ∧ strStartsWith p "linux" = false ∧
       persistTraceOf p ok = [])) := by
  refine ⟨run_events p ok s, ?_, by decide, ?_⟩
  · unfold persistTraceOf
    split_ifs <;> simp <;> decide
  · by_cases hw : p = "win32"
    · exact Or.inl ⟨hw, by unfold persistTraceOf; rw [if_pos hw]⟩
    · cases hl : strStartsWith p "linux" with
      | true =>
          exact Or.inr (Or.inl ⟨hw, rfl,
            by unfold persistTraceOf; rw [if_neg hw, if_pos hl]⟩)
      | false =>
          exact Or.inr (Or.inr ⟨hw, rfl,
            by unfold persistTraceOf; rw [if_neg hw, if_neg (by simp [hl])]⟩)

/-- C10: the run is deterministic and its effect sequence is
independent of the prior environment and file state: for a fixed
platform classification and open outcome, the emitted event trace is
the same fixed sequence — the process-scope actions in the ConfigSet's
insertion order, then the persistence actions of the selected branch. -/
theorem claim_C10_deterministic_effects
    (p : String) (ok : Bool) (s₁ s₂ : State) :
    ((set_env_vars p ok s₁).1).events.drop s₁.events.length =
      ((set_env_vars p ok s₂).1).events.drop s₂.events.length ∧
    ((set_env_vars p ok s₁).1).events.drop s₁.events.length =
      procTraceOf env_vars ++ persistTraceOf p ok ∧
    procTraceOf env_vars =
      env_vars.flatMap
        (fun kv => [Event.setProc kv.1 kv.2, Event.printed (procMsg kv.1)]) := by
  have d : ∀ t : State,
      ((set_env_vars p ok t).1).events.drop t.events.length =
        procTraceOf env_vars ++ persistTraceOf p ok := by
    intro t
    rw [run_events, List.drop_left]
  exact ⟨(d s₁).trans (d s₂).symm, d s₁, rfl⟩

end CreateEnvVars
